import Mathlib

/-!
Shallow embedding of the aptosvestingflow pipeline
(`src/utils/stage_processors.py`, `src/id_generator.py`) and proofs about it.

Modelling conventions:
* pandas DataFrames become `List` of typed rows; NaN cells become `Option`.
* decimal amounts are `ℚ` (exact arithmetic, as the spec's decimals).
* naive local timestamps are `ℚ` seconds; a calendar date is its day
  number (`Int`), obtained by flooring a timestamp divided by 86400,
  mirroring `datetime.date()` truncation.
* `st.session_state` entries become explicitly threaded state values;
  `st.warning` / `st.error` calls become accumulated message lists.
-/

/-! ## Decimal formatting (Python `str(n)` / `f"{n:06d}"`) -/

/-- Decimal digit characters, exactly as produced by Python's decimal
formatting. -/
def digitChar : Nat → Char
  | 0 => '0' | 1 => '1' | 2 => '2' | 3 => '3' | 4 => '4'
  | 5 => '5' | 6 => '6' | 7 => '7' | 8 => '8' | _ => '9'

/-- Fuel-indexed decimal rendering of a natural number, most significant
digit first. -/
def toDecimalAux : Nat → Nat → List Char
  | 0, _ => []
  | fuel + 1, n =>
    if n < 10 then [digitChar n]
    else toDecimalAux fuel (n / 10) ++ [digitChar (n % 10)]

/-- Decimal rendering of a natural number (Python `str(n)` for `n ≥ 0`). -/
def toDecimal (n : Nat) : List Char := toDecimalAux (n + 1) n

/-- Zero-padding to width `w` (Python format spec `0{w}d` on a
nonnegative value): pad on the left with `'0'` up to width `w`. -/
def padZero (w n : Nat) : List Char :=
  List.replicate (w - (toDecimal n).length) '0' ++ toDecimal n

/-- Value of a decimal digit character. -/
def digitVal (c : Char) : Nat := c.toNat - 48

/-- Reading a digit string back as a number (proof device for
injectivity of the decimal rendering). -/
def ofDecimal (s : List Char) : Nat :=
  s.foldl (fun a c => a * 10 + digitVal c) 0

theorem digitVal_digitChar (d : Nat) (h : d < 10) :
    digitVal (digitChar d) = d := by
  interval_cases d <;> rfl

theorem digitChar_isDigit (d : Nat) (h : d < 10) :
    (digitChar d).isDigit = true := by
  interval_cases d <;> rfl

theorem foldl_toDecimalAux (fuel : Nat) :
    ∀ n a, n < fuel →
      (toDecimalAux fuel n).foldl (fun a c => a * 10 + digitVal c) a =
        a * 10 ^ (toDecimalAux fuel n).length + n := by
  induction fuel with
  | zero => intro n a h; omega
  | succ fuel ih =>
    intro n a h
    by_cases h10 : n < 10
    · simp [toDecimalAux, h10, List.foldl, digitVal_digitChar n h10]
    · have hdiv : n / 10 < fuel := by
        have := Nat.div_lt_self (by omega : 0 < n) (by omega : 1 < 10)
        omega
      simp only [toDecimalAux, if_neg h10, List.foldl_append, List.foldl,
        List.length_append, List.length_cons, List.length_nil]
      rw [ih (n / 10) a hdiv]
      have hm : n % 10 < 10 := Nat.mod_lt _ (by omega)
      rw [digitVal_digitChar _ hm]
      have : 10 * (n / 10) + n % 10 = n := Nat.div_add_mod n 10
      ring_nf
      omega

theorem ofDecimal_toDecimal (n : Nat) : ofDecimal (toDecimal n) = n := by
  have := foldl_toDecimalAux (n + 1) n 0 (Nat.lt_succ_self n)
  simpa [ofDecimal, toDecimal] using this

theorem foldl_digits_replicate_zero (k : Nat) :
    (List.replicate k '0').foldl (fun a c => a * 10 + digitVal c) 0 = 0 := by
  induction k with
  | zero => rfl
  | succ k ih => simpa [List.replicate_succ, List.foldl, digitVal] using ih

theorem ofDecimal_padZero (w n : Nat) : ofDecimal (padZero w n) = n := by
  unfold padZero ofDecimal
  rw [List.foldl_append, foldl_digits_replicate_zero]
  exact ofDecimal_toDecimal n

theorem padZero_injective (w : Nat) {m n : Nat}
    (h : padZero w m = padZero w n) : m = n := by
  have := congrArg ofDecimal h
  rwa [ofDecimal_padZero, ofDecimal_padZero] at this

theorem toDecimalAux_length_le (fuel : Nat) :
    ∀ n w, n < fuel → n < 10 ^ w → 1 ≤ w →
      (toDecimalAux fuel n).length ≤ w := by
  induction fuel with
  | zero => intro n w h; omega
  | succ fuel ih =>
    intro n w h hpow hw
    by_cases h10 : n < 10
    · simpa [toDecimalAux, h10] using hw
    · have hw2 : 2 ≤ w := by
        by_contra hcon
        have hw1 : w = 1 := by omega
        rw [hw1] at hpow; simp at hpow; omega
      have hdiv : n / 10 < fuel := by
        have := Nat.div_lt_self (by omega : 0 < n) (by omega : 1 < 10)
        omega
      have hpow' : n / 10 < 10 ^ (w - 1) := by
        have h1 : 10 ^ w = 10 ^ (w - 1) * 10 := by
          rw [← pow_succ]
          congr 1
          omega
        rw [Nat.div_lt_iff_lt_mul (by omega : 0 < 10)]
        omega
      have := ih (n / 10) (w - 1) hdiv hpow' (by omega)
      simp only [toDecimalAux, if_neg h10, List.length_append,
        List.length_cons, List.length_nil]
      omega

theorem toDecimal_length_le {n w : Nat} (hpow : n < 10 ^ w) (hw : 1 ≤ w) :
    (toDecimal n).length ≤ w :=
  toDecimalAux_length_le (n + 1) n w (Nat.lt_succ_self n) hpow hw

theorem padZero_length {w n : Nat} (hpow : n < 10 ^ w) (hw : 1 ≤ w) :
    (padZero w n).length = w := by
  have := toDecimal_length_le hpow hw
  simp only [padZero, List.length_append, List.length_replicate]
  omega

theorem toDecimalAux_digits (fuel : Nat) :
    ∀ n, n < fuel → ∀ c ∈ toDecimalAux fuel n, c.isDigit = true := by
  induction fuel with
  | zero => intro n h; omega
  | succ fuel ih =>
    intro n h c hc
    by_cases h10 : n < 10
    · simp [toDecimalAux, h10] at hc
      subst hc
      exact digitChar_isDigit n h10
    · have hdiv : n / 10 < fuel := by
        have := Nat.div_lt_self (by omega : 0 < n) (by omega : 1 < 10)
        omega
      simp [toDecimalAux, h10] at hc
      rcases hc with hc | hc
      · exact ih (n / 10) hdiv c hc
      · subst hc
        exact digitChar_isDigit _ (Nat.mod_lt _ (by omega))

theorem padZero_digits (w n : Nat) :
    ∀ c ∈ padZero w n, c.isDigit = true := by
  intro c hc
  simp [padZero] at hc
  rcases hc with ⟨_, hc⟩ | hc
  · subst hc; rfl
  · exact toDecimalAux_digits (n + 1) n (Nat.lt_succ_self n) c hc

/-! ## ID Generator (`src/id_generator.py`, class `UniqueIDGenerator`) -/

/-- A wall-clock reading as used by `datetime.now().strftime("%Y%m%d%H%M%S")`. -/
structure Timestamp where
  year : Nat
  month : Nat
  day : Nat
  hour : Nat
  minute : Nat
  second : Nat
deriving DecidableEq, Repr

/-- Bounds `datetime.now()` guarantees on its fields. -/
def validTimestamp (t : Timestamp) : Prop :=
  t.year ≤ 9999 ∧ 1 ≤ t.month ∧ t.month ≤ 12 ∧ 1 ≤ t.day ∧ t.day ≤ 31 ∧
    t.hour ≤ 23 ∧ t.minute ≤ 59 ∧ t.second ≤ 59

instance (t : Timestamp) : Decidable (validTimestamp t) := by
  unfold validTimestamp; infer_instance

/-- Rendering of `strftime("%Y%m%d%H%M%S")`: zero-padded year (4), month,
day, hour, minute, second (2 each). -/
def fmtTimestamp (t : Timestamp) : List Char :=
  padZero 4 t.year ++ padZero 2 t.month ++ padZero 2 t.day ++
    padZero 2 t.hour ++ padZero 2 t.minute ++ padZero 2 t.second

theorem fmtTimestamp_length {t : Timestamp} (h : validTimestamp t) :
    (fmtTimestamp t).length = 14 := by
  obtain ⟨h1, h2, h3, h4, h5, h6, h7, h8⟩ := h
  simp only [fmtTimestamp, List.length_append]
  rw [padZero_length (by omega : t.year < 10 ^ 4) (by omega),
    padZero_length (by omega : t.month < 10 ^ 2) (by omega),
    padZero_length (by omega : t.day < 10 ^ 2) (by omega),
    padZero_length (by omega : t.hour < 10 ^ 2) (by omega),
    padZero_length (by omega : t.minute < 10 ^ 2) (by omega),
    padZero_length (by omega : t.second < 10 ^ 2) (by omega)]

theorem fmtTimestamp_digits (t : Timestamp) :
    ∀ c ∈ fmtTimestamp t, c.isDigit = true := by
  intro c hc
  simp only [fmtTimestamp, List.mem_append] at hc
  rcases hc with ((((hc | hc) | hc) | hc) | hc) | hc <;>
    exact padZero_digits _ _ c hc

/-- The generator's state: `st.session_state['id_counter']` and the
counter persisted in `data/id_counter.json`. -/
structure GenState where
  counter : Nat
  stored : Nat
deriving DecidableEq, Repr

/-- State right after `load_counter` has loaded a persisted value `c`
into the session (`UniqueIDGenerator.load_counter`). -/
def initState (c : Nat) : GenState := ⟨c, c⟩

/-- `UniqueIDGenerator.save_counter`: writes the in-memory counter to the
store (successful-write path; an unwritable store is an environment
failure outside this embedding). -/
def save_counter (s : GenState) : GenState := { s with stored := s.counter }

/-- The unique-ID string `f"VT{timestamp}{current_id:06d}"`. -/
def mkId (ts : Timestamp) (current : Nat) : String :=
  String.mk ('V' :: 'T' :: (fmtTimestamp ts ++ padZero 6 current))

/-- `UniqueIDGenerator.get_next_id`: take the current counter, increment
the session counter, persist it, and render the id from the wall clock
and the taken counter value. -/
def get_next_id (ts : Timestamp) (s : GenState) : String × GenState :=
  let current := s.counter
  let s1 := save_counter { s with counter := s.counter + 1 }
  (mkId ts current, s1)

/-- A run of `n` successive `get_next_id` calls; `clock k` is the wall
clock observed by the call that takes counter value `k`. -/
def runGen (clock : Nat → Timestamp) : Nat → GenState → List String × GenState
  | 0, s => ([], s)
  | n + 1, s =>
    let r1 := get_next_id (clock s.counter) s
    let r2 := runGen clock n r1.2
    (r1.1 :: r2.1, r2.2)

theorem mkId_injective {t1 t2 : Timestamp} {m n : Nat}
    (h1 : validTimestamp t1) (h2 : validTimestamp t2)
    (h : mkId t1 m = mkId t2 n) : m = n := by
  have hdata : ('V' :: 'T' :: (fmtTimestamp t1 ++ padZero 6 m)) =
      ('V' :: 'T' :: (fmtTimestamp t2 ++ padZero 6 n)) := congrArg String.data h
  have happ : fmtTimestamp t1 ++ padZero 6 m = fmtTimestamp t2 ++ padZero 6 n := by
    simpa using hdata
  have hlen : (fmtTimestamp t1).length = (fmtTimestamp t2).length := by
    rw [fmtTimestamp_length h1, fmtTimestamp_length h2]
  have := List.append_inj happ hlen
  exact padZero_injective 6 this.2

theorem runGen_snd (clock : Nat → Timestamp) :
    ∀ n c, (runGen clock n (initState c)).2 = initState (c + n) := by
  intro n
  induction n with
  | zero => intro c; rfl
  | succ n ih =>
    intro c
    have h2 : (get_next_id (clock (initState c).counter) (initState c)).2 =
        initState (c + 1) := rfl
    simp only [runGen, h2, ih (c + 1)]
    congr 1
    omega

theorem runGen_fst (clock : Nat → Timestamp) :
    ∀ n c, (runGen clock n (initState c)).1 =
      (List.range n).map fun k => mkId (clock (c + k)) (c + k) := by
  intro n
  induction n with
  | zero => intro c; rfl
  | succ n ih =>
    intro c
    have h1 : (get_next_id (clock (initState c).counter) (initState c)).1 =
        mkId (clock c) c := rfl
    have h2 : (get_next_id (clock (initState c).counter) (initState c)).2 =
        initState (c + 1) := rfl
    have htail : (List.range n).map (fun k => mkId (clock (c + 1 + k)) (c + 1 + k)) =
        (List.range n).map ((fun k => mkId (clock (c + k)) (c + k)) ∘ Nat.succ) := by
      apply List.map_congr_left
      intro k _
      simp only [Function.comp_apply, Nat.succ_eq_add_one]
      have hk : c + 1 + k = c + (k + 1) := by omega
      rw [hk]
    simp only [runGen, h1, h2, ih (c + 1), htail, List.range_succ_eq_map,
      List.map_cons, List.map_map, Nat.add_zero]

theorem runGen_ids_nodup (clock : Nat → Timestamp) (n c : Nat)
    (hclock : ∀ k, validTimestamp (clock k)) :
    ((runGen clock n (initState c)).1).Nodup := by
  rw [runGen_fst]
  refine List.Nodup.map_on ?_ (List.nodup_range n)
  intro i _ j _ hij
  have := mkId_injective (hclock (c + i)) (hclock (c + j)) hij
  omega

/-- Claim C5: every id issued by the ID Generator within one process
lifetime is distinct from every other id issued in that lifetime, each id
is the fixed "VT" followed by a 14-digit second-resolution timestamp and
the zero-padded (width 6) counter value, and after `n` issuances the
stored counter equals its value before the run plus `n`. -/
theorem claim_C5 (clock : Nat → Timestamp) (n c : Nat)
    (hclock : ∀ k, validTimestamp (clock k)) :
    ((runGen clock n (initState c)).1).Nodup ∧
    (runGen clock n (initState c)).2.stored = c + n ∧
    (runGen clock n (initState c)).2.counter = c + n ∧
    ∀ s ∈ (runGen clock n (initState c)).1, ∃ k, k < n ∧
      s = String.mk ('V' :: 'T' ::
        (fmtTimestamp (clock (c + k)) ++ padZero 6 (c + k))) ∧
      (fmtTimestamp (clock (c + k))).length = 14 ∧
      ∀ ch ∈ fmtTimestamp (clock (c + k)), ch.isDigit = true := by
  refine ⟨runGen_ids_nodup clock n c hclock, ?_, ?_, ?_⟩
  · rw [runGen_snd]; rfl
  · rw [runGen_snd]; rfl
  · intro s hs
    rw [runGen_fst] at hs
    obtain ⟨k, hk, hsk⟩ := List.mem_map.mp hs
    refine ⟨k, List.mem_range.mp hk, ?_, fmtTimestamp_length (hclock (c + k)),
      fmtTimestamp_digits (clock (c + k))⟩
    exact hsk.symm

/-- Concrete instance of claim C5: three issuances starting from a stored
counter of 1 at a fixed wall clock. -/
theorem claim_C5_witness :
    ((runGen (fun _ => ⟨2024, 1, 5, 12, 0, 0⟩) 3 (initState 1)).1).Nodup ∧
    (runGen (fun _ => ⟨2024, 1, 5, 12, 0, 0⟩) 3 (initState 1)).2.stored = 1 + 3 ∧
    (runGen (fun _ => ⟨2024, 1, 5, 12, 0, 0⟩) 3 (initState 1)).2.counter = 1 + 3 ∧
    ∀ s ∈ (runGen (fun _ => ⟨2024, 1, 5, 12, 0, 0⟩) 3 (initState 1)).1, ∃ k, k < 3 ∧
      s = String.mk ('V' :: 'T' ::
        (fmtTimestamp ⟨2024, 1, 5, 12, 0, 0⟩ ++ padZero 6 (1 + k))) ∧
      (fmtTimestamp ⟨2024, 1, 5, 12, 0, 0⟩).length = 14 ∧
      ∀ ch ∈ fmtTimestamp ⟨2024, 1, 5, 12, 0, 0⟩, ch.isDigit = true :=
  claim_C5 (fun _ => ⟨2024, 1, 5, 12, 0, 0⟩) 3 1
    (fun _ => (by decide : validTimestamp ⟨2024, 1, 5, 12, 0, 0⟩))

/-! ## Data model (`§3` of the spec; columns of the input CSVs) -/

/-- One row of the custodian (Anchorage) transaction report; only the
columns Stage 1 reads.  `endTime` is the naive local `End Time` in
seconds; a calendar date is the floored day number. -/
structure CustodianRow where
  endTime : ℚ
  type : String
  assetQuantity : ℚ
  valueUsd : ℚ
  destinationAddress : String
deriving DecidableEq, Repr

/-- Date truncation of a naive timestamp (`pd.to_datetime(...).dt.date`):
the day number containing the instant. -/
def dateOf (t : ℚ) : Int := ⌊t / 86400⌋

/-- One row of the Wallets List (`ID, Name, Addresses`); a NaN `Addresses`
cell is `none`. -/
structure WalletEntry where
  id : String
  name : String
  addresses : Option String
deriving DecidableEq, Repr

/-- One row of the Vesting Wallet Pairs table. -/
structure VestingPair where
  originatingWallet : String
  beneficiaryWallet : String
deriving DecidableEq, Repr

/-- One Stage-1 output row (`Date, Wallet Name, Asset Quantity (Before
Fee), Value (USD)`). -/
structure OutflowRow where
  date : Int
  walletName : String
  assetQuantity : ℚ
  valueUsd : ℚ
deriving DecidableEq, Repr

/-- A stage's returned table plus the `st.warning` / `st.error` messages
it emitted. -/
structure Stage1Result where
  rows : List OutflowRow
  warnings : List String
  errors : List String
deriving DecidableEq, Repr

/-! ## Stage 1 (`StageProcessor.process_stage_1`) -/

/-- The rows kept by Stage 1's filter
`anchorage_df[anchorage_df['Type'] == 'Balance Adjustment']`. -/
def balanceAdjustments (anchorage : List CustodianRow) : List CustodianRow :=
  anchorage.filter (fun r => r.type == "Balance Adjustment")

/-- The `groupby` key of a custodian row: `(Date, Destination Address)`. -/
def rowKey (r : CustodianRow) : Int × String :=
  (dateOf r.endTime, r.destinationAddress)

/-- Ascending order on group keys, as `groupby(['Date', 'Destination
Address'])` sorts them. -/
def keyLE (a b : Int × String) : Prop :=
  a.1 < b.1 ∨ (a.1 = b.1 ∧ a.2 ≤ b.2)

instance : DecidableRel keyLE := fun a b => by unfold keyLE; infer_instance

instance : IsTotal (Int × String) keyLE where
  total a b := by
    rcases lt_trichotomy a.1 b.1 with h | h | h
    · exact Or.inl (Or.inl h)
    · rcases le_total a.2 b.2 with h2 | h2
      · exact Or.inl (Or.inr ⟨h, h2⟩)
      · exact Or.inr (Or.inr ⟨h.symm, h2⟩)
    · exact Or.inr (Or.inl h)

instance : IsTrans (Int × String) keyLE where
  trans a b c hab hbc := by
    rcases hab with h | ⟨he, h2⟩
    · rcases hbc with h' | ⟨he', h2'⟩
      · exact Or.inl (h.trans h')
      · exact Or.inl (he' ▸ h)
    · rcases hbc with h' | ⟨he', h2'⟩
      · exact Or.inl (he ▸ h')
      · exact Or.inr ⟨he.trans he', h2.trans h2'⟩

/-- Address resolution through `dict(zip(wallets_df['Addresses'],
wallets_df['Name']))`: later duplicate addresses overwrite earlier ones,
NaN addresses are skipped (`pd.notna`), and an unresolved address stays
as the wallet name. -/
def resolveWalletName (wallets : List WalletEntry) (addr : String) : String :=
  match (wallets.filter (fun w => w.addresses == some addr)).getLast? with
  | some w => w.name
  | none => addr

/-- The aggregated row of one `(Date, Destination Address)` group: the
group's sums of `Asset Quantity (Before Fee)` and `Value (USD)`, with the
address replaced by its resolved wallet name. -/
def groupRowOf (ba : List CustodianRow) (wallets : List WalletEntry)
    (k : Int × String) : OutflowRow :=
  let grp := ba.filter (fun r => rowKey r == k)
  { date := k.1
    walletName := resolveWalletName wallets k.2
    assetQuantity := (grp.map (fun r => r.assetQuantity)).sum
    valueUsd := (grp.map (fun r => r.valueUsd)).sum }

/-- Ascending order used by `result.sort_values(['Date', 'Wallet Name'])`. -/
def outLE (x y : OutflowRow) : Prop :=
  x.date < y.date ∨ (x.date = y.date ∧ x.walletName ≤ y.walletName)

instance : DecidableRel outLE := fun a b => by unfold outLE; infer_instance

instance : IsTotal OutflowRow outLE where
  total a b := by
    rcases lt_trichotomy a.date b.date with h | h | h
    · exact Or.inl (Or.inl h)
    · rcases le_total a.walletName b.walletName with h2 | h2
      · exact Or.inl (Or.inr ⟨h, h2⟩)
      · exact Or.inr (Or.inr ⟨h.symm, h2⟩)
    · exact Or.inr (Or.inl h)

instance : IsTrans OutflowRow outLE where
  trans a b c hab hbc := by
    rcases hab with h | ⟨he, h2⟩
    · rcases hbc with h' | ⟨he', h2'⟩
      · exact Or.inl (h.trans h')
      · exact Or.inl (he' ▸ h)
    · rcases hbc with h' | ⟨he', h2'⟩
      · exact Or.inl (he ▸ h')
      · exact Or.inr ⟨he.trans he', h2.trans h2'⟩

/-- `StageProcessor.process_stage_1`: filter `Balance Adjustment` rows
(warning and empty result if none), group by `(Date, Destination
Address)` summing quantity and USD value, resolve wallet names, and sort
by `(Date, Wallet Name)`. -/
def process_stage_1 (anchorage : List CustodianRow)
    (wallets : List WalletEntry) : Stage1Result :=
  let ba := balanceAdjustments anchorage
  if ba.isEmpty then
    { rows := []
      warnings := ["No Balance Adjustment transactions found in the data."]
      errors := [] }
  else
    let keys := List.insertionSort keyLE ((ba.map rowKey).dedup)
    let grouped := keys.map (groupRowOf ba wallets)
    { rows := List.insertionSort outLE grouped, warnings := [], errors := [] }

theorem stage1_rows_perm (anchorage : List CustodianRow) (wallets : List WalletEntry) :
    ((process_stage_1 anchorage wallets).rows).Perm
      ((((balanceAdjustments anchorage).map rowKey).dedup).map
        (groupRowOf (balanceAdjustments anchorage) wallets)) := by
  unfold process_stage_1
  by_cases h : (balanceAdjustments anchorage).isEmpty
  · rw [if_pos h]
    have hempty : balanceAdjustments anchorage = [] := by
      rwa [List.isEmpty_iff] at h
    simp [hempty]
  · rw [if_neg h]
    exact (List.perm_insertionSort outLE _).trans
      ((List.perm_insertionSort keyLE _).map _)

theorem stage1_rows_sorted (anchorage : List CustodianRow) (wallets : List WalletEntry) :
    ((process_stage_1 anchorage wallets).rows).Sorted outLE := by
  unfold process_stage_1
  by_cases h : (balanceAdjustments anchorage).isEmpty
  · rw [if_pos h]; exact List.sorted_nil
  · rw [if_neg h]; exact List.sorted_insertionSort outLE _

/-- Claim C3: Stage 1's output has exactly one row per distinct
`(date of End Time, Destination Address)` pair among the `"Balance
Adjustment"` rows, each row carrying the exact sums of `Asset Quantity
(Before Fee)` and `Value (USD)` over the matching input rows, and the
output is sorted ascending by `(date, wallet name)`. -/
theorem claim_C3 (anchorage : List CustodianRow) (wallets : List WalletEntry) :
    ((process_stage_1 anchorage wallets).rows).Perm
      ((((anchorage.filter (fun r => r.type == "Balance Adjustment")).map
          rowKey).dedup).map
        (fun k =>
          { date := k.1
            walletName := resolveWalletName wallets k.2
            assetQuantity :=
              (((anchorage.filter (fun r => r.type == "Balance Adjustment")).filter
                  (fun r => rowKey r == k)).map (fun r => r.assetQuantity)).sum
            valueUsd :=
              (((anchorage.filter (fun r => r.type == "Balance Adjustment")).filter
                  (fun r => rowKey r == k)).map (fun r => r.valueUsd)).sum })) ∧
    (((anchorage.filter (fun r => r.type == "Balance Adjustment")).map
      rowKey).dedup).Nodup ∧
    (∀ k, k ∈ ((anchorage.filter (fun r => r.type == "Balance Adjustment")).map
        rowKey).dedup ↔
      ∃ r ∈ anchorage, r.type = "Balance Adjustment" ∧ rowKey r = k) ∧
    ((process_stage_1 anchorage wallets).rows).Sorted outLE := by
  refine ⟨stage1_rows_perm anchorage wallets, List.nodup_dedup _, ?_,
    stage1_rows_sorted anchorage wallets⟩
  intro k
  simp only [List.mem_dedup, List.mem_map, List.mem_filter, beq_iff_eq]
  constructor
  · rintro ⟨r, ⟨hr, ht⟩, hk⟩
    exact ⟨r, hr, ht, hk⟩
  · rintro ⟨r, hr, ht, hk⟩
    exact ⟨r, ⟨hr, ht⟩, hk⟩

/-- Concrete instance of claim C3, discharging its inner `↔` at the
spec's §8 scenario key. -/
theorem claim_C3_witness :
    ((0 : Int), "0xABC") ∈
      (([(⟨3600, "Balance Adjustment", 100, 500, "0xABC"⟩ : CustodianRow),
          ⟨7200, "Withdrawal", 10, 50, "0xABC"⟩].filter
            (fun r => r.type == "Balance Adjustment")).map rowKey).dedup ↔
    ∃ r ∈ [(⟨3600, "Balance Adjustment", 100, 500, "0xABC"⟩ : CustodianRow),
        ⟨7200, "Withdrawal", 10, 50, "0xABC"⟩],
      r.type = "Balance Adjustment" ∧ rowKey r = ((0 : Int), "0xABC") :=
  (claim_C3 [⟨3600, "Balance Adjustment", 100, 500, "0xABC"⟩,
    ⟨7200, "Withdrawal", 10, 50, "0xABC"⟩]
    [⟨"W1", "Aptos TeamA", some "0xABC"⟩]).2.2.1 ((0 : Int), "0xABC")

/-- Claim C7: Stage 1 keeps exactly the custodian rows whose `Type` is
the literal `"Balance Adjustment"` (exact, case-sensitive string
equality), and an input with no matching row yields an empty result with
a warning and no error. -/
theorem claim_C7 (anchorage : List CustodianRow) (wallets : List WalletEntry) :
    (∀ r, r ∈ balanceAdjustments anchorage ↔
      r ∈ anchorage ∧ r.type = "Balance Adjustment") ∧
    ((∀ r ∈ anchorage, r.type ≠ "Balance Adjustment") →
      (process_stage_1 anchorage wallets).rows = [] ∧
      (process_stage_1 anchorage wallets).warnings =
        ["No Balance Adjustment transactions found in the data."] ∧
      (process_stage_1 anchorage wallets).errors = []) := by
  constructor
  · intro r
    simp [balanceAdjustments, List.mem_filter]
  · intro hnone
    have hempty : balanceAdjustments anchorage = [] := by
      rw [balanceAdjustments, List.filter_eq_nil_iff]
      intro r hr
      simpa using hnone r hr
    unfold process_stage_1
    rw [hempty]
    exact ⟨rfl, rfl, rfl⟩

/-- Concrete instance of claim C7: an input containing only a
`"Withdrawal"` row produces the empty-result-plus-warning outcome. -/
theorem claim_C7_witness :
    (process_stage_1 [⟨0, "Withdrawal", 1, 1, "a"⟩] []).rows = [] ∧
    (process_stage_1 [⟨0, "Withdrawal", 1, 1, "a"⟩] []).warnings =
      ["No Balance Adjustment transactions found in the data."] ∧
    (process_stage_1 [⟨0, "Withdrawal", 1, 1, "a"⟩] []).errors = [] :=
  (claim_C7 [⟨0, "Withdrawal", 1, 1, "a"⟩] []).2 (by decide)

/-- Claim C10: when the wallet directory holds several entries with the
same address, the `dict(zip(Addresses, Name))` lookup resolves that
address to the name of the last such entry, and every Stage-1 group with
that destination address gets that name. -/
theorem claim_C10 (l1 l2 l3 : List WalletEntry) (e1 e2 : WalletEntry) (addr : String)
    (h1 : e1.addresses = some addr) (h2 : e2.addresses = some addr)
    (hlast : ∀ e ∈ l3, e.addresses ≠ some addr) :
    resolveWalletName (l1 ++ e1 :: (l2 ++ e2 :: l3)) addr = e2.name ∧
    ∀ anchorage k,
      k ∈ ((balanceAdjustments anchorage).map rowKey).dedup → k.2 = addr →
      groupRowOf (balanceAdjustments anchorage) (l1 ++ e1 :: (l2 ++ e2 :: l3)) k ∈
        (process_stage_1 anchorage (l1 ++ e1 :: (l2 ++ e2 :: l3))).rows ∧
      (groupRowOf (balanceAdjustments anchorage)
        (l1 ++ e1 :: (l2 ++ e2 :: l3)) k).walletName = e2.name := by
  have hfilter3 : l3.filter (fun w => w.addresses == some addr) = [] := by
    rw [List.filter_eq_nil_iff]
    intro e he
    simpa using hlast e he
  have hres : resolveWalletName (l1 ++ e1 :: (l2 ++ e2 :: l3)) addr = e2.name := by
    unfold resolveWalletName
    rw [List.filter_append, List.filter_cons, List.filter_append, List.filter_cons,
      hfilter3]
    simp only [h1, h2, beq_self_eq_true, if_pos]
    have hconcat :
        l1.filter (fun w => w.addresses == some addr) ++
          e1 :: (l2.filter (fun w => w.addresses == some addr) ++ [e2]) =
        (l1.filter (fun w => w.addresses == some addr) ++
          e1 :: l2.filter (fun w => w.addresses == some addr)) ++ [e2] := by
      simp [List.append_assoc]
    rw [hconcat, List.getLast?_concat]
  refine ⟨hres, ?_⟩
  intro anchorage k hk hk2
  have hname : (groupRowOf (balanceAdjustments anchorage)
      (l1 ++ e1 :: (l2 ++ e2 :: l3)) k).walletName =
      resolveWalletName (l1 ++ e1 :: (l2 ++ e2 :: l3)) k.2 := rfl
  refine ⟨(stage1_rows_perm anchorage _).mem_iff.mpr (List.mem_map_of_mem _ hk), ?_⟩
  rw [hname, hk2, hres]

/-- Concrete instance of claim C10: two directory entries for address
`"a"`; the later name `"New"` wins for the Stage-1 group. -/
theorem claim_C10_witness :
    resolveWalletName [⟨"W1", "Old", some "a"⟩, ⟨"W2", "New", some "a"⟩] "a" = "New" ∧
    (groupRowOf (balanceAdjustments [⟨0, "Balance Adjustment", 100, 500, "a"⟩])
        [⟨"W1", "Old", some "a"⟩, ⟨"W2", "New", some "a"⟩] ((0 : Int), "a") ∈
      (process_stage_1 [⟨0, "Balance Adjustment", 100, 500, "a"⟩]
        [⟨"W1", "Old", some "a"⟩, ⟨"W2", "New", some "a"⟩]).rows ∧
    (groupRowOf (balanceAdjustments [⟨0, "Balance Adjustment", 100, 500, "a"⟩])
        [⟨"W1", "Old", some "a"⟩, ⟨"W2", "New", some "a"⟩]
        ((0 : Int), "a")).walletName = "New") :=
  have h := claim_C10 [] [] [] ⟨"W1", "Old", some "a"⟩ ⟨"W2", "New", some "a"⟩ "a"
    rfl rfl (by decide)
  ⟨h.1, h.2 [⟨0, "Balance Adjustment", 100, 500, "a"⟩] ((0 : Int), "a")
    (by with_unfolding_all decide) rfl⟩

/-! ## Stage 2 (`StageProcessor.process_stage_2` and its lookup helpers) -/

/-- Python `s.startswith(p)` on character sequences. -/
def pyStartsWith (s pat : String) : Bool := pat.data.isPrefixOf s.data

/-- Fuel-indexed left-to-right replacement of every non-overlapping
occurrence of `pat` (Python `str.replace` semantics for a nonempty
pattern). -/
def replaceAllAux (pat rep : List Char) : Nat → List Char → List Char
  | _, [] => []
  | 0, s => s
  | fuel + 1, c :: cs =>
    if pat.isPrefixOf (c :: cs) then
      rep ++ replaceAllAux pat rep fuel ((c :: cs).drop pat.length)
    else c :: replaceAllAux pat rep fuel cs

/-- Python `s.replace(pat, rep)`: replace every occurrence of `pat` in
`s`, scanning left to right. -/
def pyReplace (s pat rep : String) : String :=
  String.mk (replaceAllAux pat.data rep.data s.data.length s.data)

/-- `StageProcessor._get_withdrawal_account_id`: strip `"Aptos "` via
`str.replace` when the name starts with it, append `" vesting tokens"`,
and look the resulting name up in the wallet directory (first match);
the second component carries the `st.error` message on failure. -/
def get_withdrawal_account_id (walletName : String)
    (wallets : List WalletEntry) : Option String × List String :=
  let searchName :=
    (if pyStartsWith walletName "Aptos " then pyReplace walletName "Aptos " ""
     else walletName) ++ " vesting tokens"
  match wallets.find? (fun w => w.name == searchName) with
  | some w => (some w.id, [])
  | none => (none, [walletName ++ " is missing a vesting tokens wallet"])

/-- `StageProcessor._get_deposit_account_id`: originating wallet → its
vesting-pair beneficiary → the beneficiary's directory entry (first
matches); the second component carries the `st.error` message on
failure. -/
def get_deposit_account_id (walletName : String) (wallets : List WalletEntry)
    (pairs : List VestingPair) : Option String × List String :=
  match pairs.find? (fun p => p.originatingWallet == walletName) with
  | none =>
    (none, ["No Originating Wallet Match in the Vesting Wallet Pairs table for "
      ++ walletName])
  | some p =>
    match wallets.find? (fun w => w.name == p.beneficiaryWallet) with
    | none =>
      (none, ["No Beneficiary Wallet Match in the Wallets list for "
        ++ p.beneficiaryWallet])
    | some w => (some w.id, [])

/-- Local noon of a calendar day, in seconds
(`datetime.combine(date, datetime.min.time().replace(hour=12))`). -/
def noonTime (d : Int) : ℚ := (d : ℚ) * 86400 + 43200

/-- Stand-in rendering of `date.strftime('%m%d%y')` inside a blockchain
id; an injective encoding of the day number whose digits no claim
inspects. -/
def dateCode (d : Int) : String := toString d

/-- One Stage-2/Stage-3 output row, with every ledger column the source
writes.  `cost = none` models the empty-string cost of Stage-3 rows. -/
structure LedgerEntry where
  id : String
  remoteContactId : String
  amount : ℚ
  amountTicker : String
  cost : Option ℚ
  costTicker : String
  fee : String
  feeTicker : String
  time : ℚ
  blockchainId : String
  memo : String
  transactionType : String
  accountId : String
  contactId : String
  categoryId : String
  taxExempt : String
  tradeId : String
  description : String
  fromAddress : String
  toAddress : String
  groupId : String
deriving DecidableEq, Repr

/-- The withdrawal row literal of `process_stage_2`. -/
def withdrawalEntry (entryId accountId : String) (row : OutflowRow) : LedgerEntry :=
  { id := entryId
    remoteContactId := ""
    amount := row.assetQuantity
    amountTicker := "APT"
    cost := some row.valueUsd
    costTicker := "USD"
    fee := ""
    feeTicker := ""
    time := noonTime row.date
    blockchainId := accountId ++ ".vestingdistribute." ++ dateCode row.date
    memo := ""
    transactionType := "withdrawal"
    accountId := accountId
    contactId := ""
    categoryId := ""
    taxExempt := "FALSE"
    tradeId := ""
    description := "vesting distribution per Anchorage report"
    fromAddress := ""
    toAddress := ""
    groupId := "" }

/-- The deposit row literal of `process_stage_2`. -/
def depositEntry (entryId accountId : String) (row : OutflowRow) : LedgerEntry :=
  { id := entryId
    remoteContactId := ""
    amount := row.assetQuantity
    amountTicker := "APT"
    cost := some row.valueUsd
    costTicker := "USD"
    fee := ""
    feeTicker := ""
    time := noonTime row.date
    blockchainId := accountId ++ ".vestingdistribute." ++ dateCode row.date
    memo := ""
    transactionType := "deposit"
    accountId := accountId
    contactId := ""
    categoryId := ""
    taxExempt := "FALSE"
    tradeId := ""
    description := "vesting distribution per Anchorage report"
    fromAddress := ""
    toAddress := ""
    groupId := "" }

/-- Accumulated Stage-2 loop state: generator state, output rows and
`st.error` messages so far. -/
structure Stage2State where
  gen : GenState
  rows : List LedgerEntry
  errors : List String
deriving DecidableEq, Repr

/-- Python truthiness guard `if account_id:` applied to a lookup result:
emit the row built from the account id unless the lookup failed or
returned an empty (falsy) id. -/
def truthyEmit (o : Option String) (mk : String → LedgerEntry) : List LedgerEntry :=
  match o with
  | some acc => if acc = "" then [] else [mk acc]
  | none => []

/-- One iteration of the Stage-2 row loop: draw the withdrawal and
deposit ids (both drawn unconditionally, before any lookup), then emit
the withdrawal row when its account resolves to a truthy id, then the
deposit row likewise. -/
def stage2Step (wallets : List WalletEntry) (pairs : List VestingPair)
    (clock : Nat → Timestamp) (s : Stage2State) (row : OutflowRow) : Stage2State :=
  let w := get_next_id (clock s.gen.counter) s.gen
  let d := get_next_id (clock w.2.counter) w.2
  let wAcc := get_withdrawal_account_id row.walletName wallets
  let wRows := truthyEmit wAcc.1 (fun acc => withdrawalEntry w.1 acc row)
  let dAcc := get_deposit_account_id row.walletName wallets pairs
  let dRows := truthyEmit dAcc.1 (fun acc => depositEntry d.1 acc row)
  { gen := d.2
    rows := s.rows ++ wRows ++ dRows
    errors := s.errors ++ wAcc.2 ++ dAcc.2 }

/-- `StageProcessor.process_stage_2`: error-and-empty on empty Stage-1
input, otherwise the row loop above over the Stage-1 rows. -/
def process_stage_2 (stage1Rows : List OutflowRow) (wallets : List WalletEntry)
    (pairs : List VestingPair) (clock : Nat → Timestamp) (g : GenState) :
    Stage2State :=
  if stage1Rows.isEmpty then
    { gen := g, rows := [],
      errors := ["No Stage 1 data available for Stage 2 processing"] }
  else
    stage1Rows.foldl (stage2Step wallets pairs clock) { gen := g, rows := [], errors := [] }

theorem truthyEmit_length (o : Option String) (mk : String → LedgerEntry) :
    (truthyEmit o mk).length ≤ 1 := by
  rcases o with _ | acc
  · simp [truthyEmit]
  · by_cases h : acc = "" <;> simp [truthyEmit, h]

theorem mem_truthyEmit {o : Option String} {mk : String → LedgerEntry}
    {e : LedgerEntry} (he : e ∈ truthyEmit o mk) :
    ∃ acc, o = some acc ∧ acc ≠ "" ∧ e = mk acc := by
  rcases o with _ | acc
  · simp [truthyEmit] at he
  · by_cases h : acc = ""
    · simp [truthyEmit, h] at he
    · simp [truthyEmit, h] at he
      exact ⟨acc, rfl, h, he⟩

theorem stage2Step_rows_spec (wallets : List WalletEntry) (pairs : List VestingPair)
    (clock : Nat → Timestamp) (s : Stage2State) (row : OutflowRow) :
    ∃ extra : List LedgerEntry,
      (stage2Step wallets pairs clock s row).rows = s.rows ++ extra ∧
      extra.length ≤ 2 ∧
      ∀ e ∈ extra, e.amount = row.assetQuantity ∧ e.cost = some row.valueUsd ∧
        e.time = noonTime row.date := by
  refine ⟨truthyEmit (get_withdrawal_account_id row.walletName wallets).1
      (fun acc => withdrawalEntry
        (get_next_id (clock s.gen.counter) s.gen).1 acc row) ++
    truthyEmit (get_deposit_account_id row.walletName wallets pairs).1
      (fun acc => depositEntry
        (get_next_id (clock (get_next_id (clock s.gen.counter) s.gen).2.counter)
          (get_next_id (clock s.gen.counter) s.gen).2).1 acc row), ?_, ?_, ?_⟩
  · show s.rows ++ _ ++ _ = _
    rw [List.append_assoc]
  · have h1 := truthyEmit_length (get_withdrawal_account_id row.walletName wallets).1
      (fun acc => withdrawalEntry
        (get_next_id (clock s.gen.counter) s.gen).1 acc row)
    have h2 := truthyEmit_length (get_deposit_account_id row.walletName wallets pairs).1
      (fun acc => depositEntry
        (get_next_id (clock (get_next_id (clock s.gen.counter) s.gen).2.counter)
          (get_next_id (clock s.gen.counter) s.gen).2).1 acc row)
    simp only [List.length_append]
    omega
  · intro e he
    rcases List.mem_append.mp he with h | h
    · obtain ⟨acc, _, _, he'⟩ := mem_truthyEmit h
      subst he'
      exact ⟨rfl, rfl, rfl⟩
    · obtain ⟨acc, _, _, he'⟩ := mem_truthyEmit h
      subst he'
      exact ⟨rfl, rfl, rfl⟩

theorem stage2_foldl_rows (wallets : List WalletEntry) (pairs : List VestingPair)
    (clock : Nat → Timestamp) :
    ∀ (rows : List OutflowRow) (s : Stage2State),
      ((rows.foldl (stage2Step wallets pairs clock) s).rows.length ≤
        s.rows.length + 2 * rows.length) ∧
      ∀ e ∈ (rows.foldl (stage2Step wallets pairs clock) s).rows,
        e ∈ s.rows ∨ ∃ row ∈ rows, e.amount = row.assetQuantity ∧
          e.cost = some row.valueUsd ∧ e.time = noonTime row.date := by
  intro rows
  induction rows with
  | nil => exact fun s => ⟨by simp, fun e he => Or.inl he⟩
  | cons row rest ih =>
    intro s
    obtain ⟨extra, hrows, hlen, hprops⟩ :=
      stage2Step_rows_spec wallets pairs clock s row
    obtain ⟨ihlen, ihmem⟩ := ih (stage2Step wallets pairs clock s row)
    constructor
    · have : (stage2Step wallets pairs clock s row).rows.length ≤
          s.rows.length + 2 := by
        rw [hrows, List.length_append]; omega
      simp only [List.foldl_cons, List.length_cons] at *
      omega
    · intro e he
      simp only [List.foldl_cons] at he
      rcases ihmem e he with h | ⟨r, hr, hp⟩
      · rw [hrows] at h
        rcases List.mem_append.mp h with h' | h'
        · exact Or.inl h'
        · exact Or.inr ⟨row, List.mem_cons_self row rest, hprops e h'⟩
      · exact Or.inr ⟨r, List.mem_cons_of_mem row hr, hp⟩

/-- Claim C6: Stage 2 emits at most two ledger entries per Stage-1 input
row, and every emitted entry carries the source row's quantity as
`amount`, its USD value as `cost`, and local noon of the row's date as
`time`. -/
theorem claim_C6 (stage1Rows : List OutflowRow) (wallets : List WalletEntry)
    (pairs : List VestingPair) (clock : Nat → Timestamp) (g : GenState) :
    (process_stage_2 stage1Rows wallets pairs clock g).rows.length ≤
      2 * stage1Rows.length ∧
    ∀ e ∈ (process_stage_2 stage1Rows wallets pairs clock g).rows,
      ∃ row ∈ stage1Rows, e.amount = row.assetQuantity ∧
        e.cost = some row.valueUsd ∧ e.time = noonTime row.date := by
  unfold process_stage_2
  by_cases h : stage1Rows.isEmpty
  · rw [if_pos h]
    exact ⟨by simp, by simp⟩
  · rw [if_neg h]
    obtain ⟨hlen, hmem⟩ := stage2_foldl_rows wallets pairs clock stage1Rows
      { gen := g, rows := [], errors := [] }
    refine ⟨by simpa using hlen, ?_⟩
    intro e he
    rcases hmem e he with h' | h'
    · simp at h'
    · exact h'

/-- Concrete instance of claim C6: the spec's §8 Stage-2 scenario row. -/
theorem claim_C6_witness :
    (process_stage_2 [⟨19727, "Aptos TeamA", 100, 500⟩]
      [⟨"W1", "TeamA vesting tokens", none⟩, ⟨"W2", "TeamA Beneficiary", none⟩]
      [⟨"Aptos TeamA", "TeamA Beneficiary"⟩]
      (fun _ => ⟨2024, 1, 5, 12, 0, 0⟩) (initState 1)).rows.length ≤ 2 * 1 ∧
    ∀ e ∈ (process_stage_2 [⟨19727, "Aptos TeamA", 100, 500⟩]
      [⟨"W1", "TeamA vesting tokens", none⟩, ⟨"W2", "TeamA Beneficiary", none⟩]
      [⟨"Aptos TeamA", "TeamA Beneficiary"⟩]
      (fun _ => ⟨2024, 1, 5, 12, 0, 0⟩) (initState 1)).rows,
      ∃ row ∈ [(⟨19727, "Aptos TeamA", 100, 500⟩ : OutflowRow)],
        e.amount = row.assetQuantity ∧ e.cost = some row.valueUsd ∧
        e.time = noonTime row.date :=
  claim_C6 [⟨19727, "Aptos TeamA", 100, 500⟩]
    [⟨"W1", "TeamA vesting tokens", none⟩, ⟨"W2", "TeamA Beneficiary", none⟩]
    [⟨"Aptos TeamA", "TeamA Beneficiary"⟩]
    (fun _ => ⟨2024, 1, 5, 12, 0, 0⟩) (initState 1)

theorem stage2Step_gen (wallets : List WalletEntry) (pairs : List VestingPair)
    (clock : Nat → Timestamp) (s : Stage2State) (row : OutflowRow) :
    (stage2Step wallets pairs clock s row).gen = initState (s.gen.counter + 2) := rfl

theorem stage2Step_rows_ids (wallets : List WalletEntry) (pairs : List VestingPair)
    (clock : Nat → Timestamp) (s : Stage2State) (row : OutflowRow) :
    (stage2Step wallets pairs clock s row).rows = s.rows ++
      truthyEmit (get_withdrawal_account_id row.walletName wallets).1
        (fun acc => withdrawalEntry
          (mkId (clock s.gen.counter) s.gen.counter) acc row) ++
      truthyEmit (get_deposit_account_id row.walletName wallets pairs).1
        (fun acc => depositEntry
          (mkId (clock (s.gen.counter + 1)) (s.gen.counter + 1)) acc row) := rfl

theorem stage2_foldl_counter (wallets : List WalletEntry) (pairs : List VestingPair)
    (clock : Nat → Timestamp) :
    ∀ (rows : List OutflowRow) (s : Stage2State),
      (rows.foldl (stage2Step wallets pairs clock) s).gen.counter =
        s.gen.counter + 2 * rows.length := by
  intro rows
  induction rows with
  | nil => intro s; simp
  | cons row rest ih =>
    intro s
    simp only [List.foldl_cons, List.length_cons]
    rw [ih, stage2Step_gen]
    simp only [initState]
    omega

theorem stage2_foldl_stored (wallets : List WalletEntry) (pairs : List VestingPair)
    (clock : Nat → Timestamp) :
    ∀ (rows : List OutflowRow) (s : Stage2State),
      s.gen.stored = s.gen.counter →
      (rows.foldl (stage2Step wallets pairs clock) s).gen.stored =
        (rows.foldl (stage2Step wallets pairs clock) s).gen.counter := by
  intro rows
  induction rows with
  | nil => intro s h; simpa using h
  | cons row rest ih =>
    intro s _
    simp only [List.foldl_cons]
    exact ih _ (by rw [stage2Step_gen]; rfl)


theorem stage2_foldl_ids (wallets : List WalletEntry) (pairs : List VestingPair)
    (clock : Nat → Timestamp) :
    ∀ (rows : List OutflowRow) (s : Stage2State),
      ∀ e ∈ (rows.foldl (stage2Step wallets pairs clock) s).rows,
        e ∈ s.rows ∨
        ∃ i row', rows.get? i = some row' ∧
          ((∃ acc, (get_withdrawal_account_id row'.walletName wallets).1 = some acc ∧
              acc ≠ "" ∧ e = withdrawalEntry
                (mkId (clock (s.gen.counter + 2 * i)) (s.gen.counter + 2 * i))
                acc row') ∨
           (∃ acc, (get_deposit_account_id row'.walletName wallets pairs).1 = some acc ∧
              acc ≠ "" ∧ e = depositEntry
                (mkId (clock (s.gen.counter + 2 * i + 1)) (s.gen.counter + 2 * i + 1))
                acc row')) := by
  intro rows
  induction rows with
  | nil => intro s e he; exact Or.inl he
  | cons row rest ih =>
    intro s e he
    simp only [List.foldl_cons] at he
    rcases ih (stage2Step wallets pairs clock s row) e he with h | ⟨i, row', hget, hcase⟩
    · rw [stage2Step_rows_ids] at h
      rcases List.mem_append.mp h with h' | h'
      · rcases List.mem_append.mp h' with h'' | h''
        · exact Or.inl h''
        · obtain ⟨acc, hacc, hne, he'⟩ := mem_truthyEmit h''
          refine Or.inr ⟨0, row, rfl, Or.inl ⟨acc, hacc, hne, ?_⟩⟩
          simpa using he'
      · obtain ⟨acc, hacc, hne, he'⟩ := mem_truthyEmit h'
        refine Or.inr ⟨0, row, rfl, Or.inr ⟨acc, hacc, hne, ?_⟩⟩
        simpa using he'
    · have hcounter : (stage2Step wallets pairs clock s row).gen.counter =
          s.gen.counter + 2 := by rw [stage2Step_gen]; rfl
      rw [hcounter] at hcase
      refine Or.inr ⟨i + 1, row', by simpa using hget, ?_⟩
      rcases hcase with ⟨acc, hacc, hne, he'⟩ | ⟨acc, hacc, hne, he'⟩
      · refine Or.inl ⟨acc, hacc, hne, ?_⟩
        have harith : s.gen.counter + 2 + 2 * i = s.gen.counter + 2 * (i + 1) := by omega
        rwa [harith] at he'
      · refine Or.inr ⟨acc, hacc, hne, ?_⟩
        have harith : s.gen.counter + 2 + 2 * i + 1 =
            s.gen.counter + 2 * (i + 1) + 1 := by omega
        rwa [harith] at he'

/-- Claim C8: Stage 2 draws two ids for every Stage-1 row before either
account lookup, so the session and persisted counters advance by two per
input row even when entries are skipped, and an id drawn for a skipped
(withdrawal or deposit) half never appears among the output ids. -/
theorem claim_C8 (stage1Rows : List OutflowRow) (wallets : List WalletEntry)
    (pairs : List VestingPair) (clock : Nat → Timestamp) (c : Nat)
    (hclock : ∀ k, validTimestamp (clock k)) :
    (process_stage_2 stage1Rows wallets pairs clock (initState c)).gen.counter =
      c + 2 * stage1Rows.length ∧
    (process_stage_2 stage1Rows wallets pairs clock (initState c)).gen.stored =
      c + 2 * stage1Rows.length ∧
    ∀ i row', stage1Rows.get? i = some row' →
      ((¬ ∃ acc, (get_withdrawal_account_id row'.walletName wallets).1 = some acc ∧
          acc ≠ "") →
        mkId (clock (c + 2 * i)) (c + 2 * i) ∉
          (process_stage_2 stage1Rows wallets pairs clock (initState c)).rows.map
            (fun e => e.id)) ∧
      ((¬ ∃ acc, (get_deposit_account_id row'.walletName wallets pairs).1 = some acc ∧
          acc ≠ "") →
        mkId (clock (c + 2 * i + 1)) (c + 2 * i + 1) ∉
          (process_stage_2 stage1Rows wallets pairs clock (initState c)).rows.map
            (fun e => e.id)) := by
  unfold process_stage_2
  by_cases hemp : stage1Rows.isEmpty
  · rw [if_pos hemp]
    have hnil : stage1Rows = [] := by rwa [List.isEmpty_iff] at hemp
    subst hnil
    refine ⟨by simp [initState], by simp [initState], ?_⟩
    intro i row' hget
    simp at hget
  · rw [if_neg hemp]
    refine ⟨?_, ?_, ?_⟩
    · rw [stage2_foldl_counter]; rfl
    · rw [stage2_foldl_stored _ _ _ _ _ rfl, stage2_foldl_counter]; rfl
    · intro i row' hget
      constructor
      · intro hno hmem
        obtain ⟨e, he, hid⟩ := List.mem_map.mp hmem
        rcases stage2_foldl_ids wallets pairs clock stage1Rows
            { gen := initState c, rows := [], errors := [] } e he with h | h
        · simp at h
        · obtain ⟨j, rowj, hgetj, hcase⟩ := h
          rcases hcase with ⟨acc, hacc, hne, he'⟩ | ⟨acc, hacc, hne, he'⟩
          · subst he'
            have : c + 2 * j = c + 2 * i :=
              mkId_injective (hclock _) (hclock _) hid
            have hji : j = i := by omega
            subst hji
            rw [hget] at hgetj
            cases hgetj
            exact hno ⟨acc, hacc, hne⟩
          · subst he'
            have : c + 2 * j + 1 = c + 2 * i :=
              mkId_injective (hclock _) (hclock _) hid
            omega
      · intro hno hmem
        obtain ⟨e, he, hid⟩ := List.mem_map.mp hmem
        rcases stage2_foldl_ids wallets pairs clock stage1Rows
            { gen := initState c, rows := [], errors := [] } e he with h | h
        · simp at h
        · obtain ⟨j, rowj, hgetj, hcase⟩ := h
          rcases hcase with ⟨acc, hacc, hne, he'⟩ | ⟨acc, hacc, hne, he'⟩
          · subst he'
            have : c + 2 * j = c + 2 * i + 1 :=
              mkId_injective (hclock _) (hclock _) hid
            omega
          · subst he'
            have : c + 2 * j + 1 = c + 2 * i + 1 :=
              mkId_injective (hclock _) (hclock _) hid
            have hji : j = i := by omega
            subst hji
            rw [hget] at hgetj
            cases hgetj
            exact hno ⟨acc, hacc, hne⟩

/-- Concrete instance of claim C8: a row whose wallet name resolves
nowhere still advances the counters by two, and neither drawn id reaches
the (empty) output. -/
theorem claim_C8_witness :
    (process_stage_2 [⟨19727, "Ghost", 100, 500⟩] [] []
      (fun _ => ⟨2024, 1, 5, 12, 0, 0⟩) (initState 5)).gen.counter = 5 + 2 * 1 ∧
    (process_stage_2 [⟨19727, "Ghost", 100, 500⟩] [] []
      (fun _ => ⟨2024, 1, 5, 12, 0, 0⟩) (initState 5)).gen.stored = 5 + 2 * 1 ∧
    mkId ⟨2024, 1, 5, 12, 0, 0⟩ (5 + 2 * 0) ∉
      (process_stage_2 [⟨19727, "Ghost", 100, 500⟩] [] []
        (fun _ => ⟨2024, 1, 5, 12, 0, 0⟩) (initState 5)).rows.map (fun e => e.id) ∧
    mkId ⟨2024, 1, 5, 12, 0, 0⟩ (5 + 2 * 0 + 1) ∉
      (process_stage_2 [⟨19727, "Ghost", 100, 500⟩] [] []
        (fun _ => ⟨2024, 1, 5, 12, 0, 0⟩) (initState 5)).rows.map (fun e => e.id) := by
  have hW : (get_withdrawal_account_id "Ghost" []).1 = none := rfl
  have hD : (get_deposit_account_id "Ghost" [] []).1 = none := rfl
  have h := claim_C8 [⟨19727, "Ghost", 100, 500⟩] [] []
    (fun _ => ⟨2024, 1, 5, 12, 0, 0⟩) 5
    (fun _ => (by decide : validTimestamp ⟨2024, 1, 5, 12, 0, 0⟩))
  have h0 := h.2.2 0 ⟨19727, "Ghost", 100, 500⟩ rfl
  refine ⟨h.1, h.2.1, h0.1 ?_, h0.2 ?_⟩
  · rintro ⟨acc, hacc, -⟩
    rw [hW] at hacc
    cases hacc
  · rintro ⟨acc, hacc, -⟩
    rw [hD] at hacc
    cases hacc

/-- Claim C4 (code-bug evidence): for the wallet name
`"Aptos Aptos Labs"`, the code's guarded `str.replace("Aptos ", "")`
removes every occurrence — not only the prefix — so it searches for
`"Labs vesting tokens"` and reports the wallet missing even though the
directory holds exactly the name that prefix-only removal (the claim's
and the code comment's reading) would produce, `"Aptos Labs vesting
tokens"`. -/
theorem claim_C4_failing :
    pyReplace "Aptos Aptos Labs" "Aptos " "" = "Labs" ∧
    String.mk ("Aptos Aptos Labs".data.drop "Aptos ".data.length) ++
      " vesting tokens" = "Aptos Labs vesting tokens" ∧
    get_withdrawal_account_id "Aptos Aptos Labs"
      [⟨"W1", "Aptos Labs vesting tokens", none⟩] =
      (none, ["Aptos Aptos Labs is missing a vesting tokens wallet"]) := by
  refine ⟨?_, ?_, ?_⟩
  · with_unfolding_all rfl
  · with_unfolding_all rfl
  · with_unfolding_all rfl

/-! ## Stage 3 (`StageProcessor.process_stage_3` and helpers) and Stage 4 -/

/-- One row of the reward-source (Bitwave) export
(`id, dateTime, walletId, amount`); `dateTime` in seconds. -/
structure BitwaveRow where
  id : String
  dateTime : ℚ
  walletId : String
  amount : ℚ
deriving DecidableEq, Repr

/-- One element of `st.session_state['stage3_matched_transactions']`. -/
structure MatchRecord where
  id : String
  bitwave_amount : ℚ
  stage2_amount : ℚ
  calculated_amount : ℚ
deriving DecidableEq, Repr

/-- One row of Stage 3's display table. -/
structure DisplayRow where
  date : Int
  walletName : String
  amount : ℚ
deriving DecidableEq, Repr

/-- `StageProcessor._get_stage2_deposit_amount`: among Stage-2 rows,
filter deposits with the account id, then return the amount of the first
whose time's date component equals the Stage-1 date. -/
def get_stage2_deposit_amount (stage2Rows : List LedgerEntry)
    (accountId : String) (d : Int) : Option ℚ :=
  let deposits := stage2Rows.filter
    (fun e => e.transactionType == "deposit" && e.accountId == accountId)
  if deposits.isEmpty then none
  else (deposits.find? (fun e => dateOf e.time == d)).map (fun e => e.amount)

/-- `StageProcessor._calculate_bitwave_amount`: filter the reward source
to the wallet id, then to timestamps in `(midnight(d), midnight(d)+10d]`,
then to amounts above the Stage-2 amount; take the first match, append a
match record to the session accumulator (creating it if absent), and
return `matched - stage2Amount`. -/
def calculate_bitwave_amount (bitwave : List BitwaveRow) (accountId : String)
    (d : Int) (stage2Amount : ℚ) (acc : Option (List MatchRecord)) :
    Option ℚ × Option (List MatchRecord) :=
  let walletTxs := bitwave.filter (fun t => t.walletId == accountId)
  if walletTxs.isEmpty then (none, acc)
  else
    let baseDate : ℚ := (d : ℚ) * 86400
    let endDate : ℚ := baseDate + 864000
    let dateFiltered := walletTxs.filter
      (fun t => decide (baseDate < t.dateTime) && decide (t.dateTime ≤ endDate))
    if dateFiltered.isEmpty then (none, acc)
    else
      let amountFiltered := dateFiltered.filter
        (fun t => decide (stage2Amount < t.amount))
      match amountFiltered with
      | [] => (none, acc)
      | tx :: _ =>
        let calcAmt := tx.amount - stage2Amount
        (some calcAmt,
          some ((acc.getD []) ++ [⟨tx.id, tx.amount, stage2Amount, calcAmt⟩]))

/-- `StageProcessor._get_wallet_name_from_id`. -/
def get_wallet_name_from_id (accountId : String)
    (wallets : List WalletEntry) : String :=
  match wallets.find? (fun w => w.id == accountId) with
  | some w => w.name
  | none => "Unknown Wallet (" ++ accountId ++ ")"

/-- The staking-reward deposit row literal of `process_stage_3`. -/
def stakingEntry (entryId accountId : String) (d : Int) (amount : ℚ) : LedgerEntry :=
  { id := entryId
    remoteContactId := ""
    amount := amount
    amountTicker := "APT"
    cost := none
    costTicker := ""
    fee := ""
    feeTicker := ""
    time := noonTime d
    blockchainId := accountId ++ ".vestingstakingrewards." ++ dateCode d
    memo := ""
    transactionType := "deposit"
    accountId := accountId
    contactId := "nFc4OUI5w6wSa6zFKQVj.526"
    categoryId := "nFc4OUI5w6wSa6zFKQVj.265"
    taxExempt := "FALSE"
    tradeId := ""
    description := "staking reward from vesting distribution per Anchorage report"
    fromAddress := ""
    toAddress := ""
    groupId := "" }

/-- Accumulated Stage-3 loop state: generator state, output and display
rows, the session match-record accumulator, and `st.error` messages. -/
structure Stage3State where
  gen : GenState
  rows : List LedgerEntry
  display : List DisplayRow
  acc : Option (List MatchRecord)
  errors : List String
deriving DecidableEq, Repr

/-- One iteration of the Stage-3 row loop: resolve the deposit account
(truthiness-checked), look up the Stage-2 deposit amount, run the
Bitwave calculation (which may append a match record), and when the
calculated amount is positive draw an id and emit the reward row plus a
display row. -/
def stage3Step (stage2Rows : List LedgerEntry) (bitwave : List BitwaveRow)
    (wallets : List WalletEntry) (pairs : List VestingPair)
    (clock : Nat → Timestamp) (s : Stage3State) (row : OutflowRow) : Stage3State :=
  let dAcc := get_deposit_account_id row.walletName wallets pairs
  match dAcc.1 with
  | none => { s with errors := s.errors ++ dAcc.2 }
  | some accountId =>
    if accountId = "" then { s with errors := s.errors ++ dAcc.2 }
    else
      match get_stage2_deposit_amount stage2Rows accountId row.date with
      | none => s
      | some expected =>
        let r := calculate_bitwave_amount bitwave accountId row.date expected s.acc
        match r.1 with
        | none => { s with acc := r.2 }
        | some calcAmt =>
          if calcAmt ≤ 0 then { s with acc := r.2 }
          else
            let u := get_next_id (clock s.gen.counter) s.gen
            { gen := u.2
              rows := s.rows ++ [stakingEntry u.1 accountId row.date calcAmt]
              display := s.display ++
                [⟨row.date, get_wallet_name_from_id accountId wallets, calcAmt⟩]
              acc := r.2
              errors := s.errors }

/-- `StageProcessor.process_stage_3`: error-and-empty on empty Stage-1
input (accumulator untouched), otherwise the row loop above. -/
def process_stage_3 (stage1Rows : List OutflowRow) (stage2Rows : List LedgerEntry)
    (bitwave : List BitwaveRow) (wallets : List WalletEntry)
    (pairs : List VestingPair) (clock : Nat → Timestamp) (g : GenState)
    (acc : Option (List MatchRecord)) : Stage3State :=
  if stage1Rows.isEmpty then
    { gen := g, rows := [], display := [], acc := acc,
      errors := ["No Stage 1 data available for Stage 3 processing"] }
  else
    stage1Rows.foldl (stage3Step stage2Rows bitwave wallets pairs clock)
      { gen := g, rows := [], display := [], acc := acc, errors := [] }

/-- One Stage-4 output row. -/
structure SuppressionEntry where
  transactionID : String
  action : String
deriving DecidableEq, Repr

/-- Stage 4's returned table plus its `st.warning` / `st.error` messages. -/
structure Stage4Result where
  rows : List SuppressionEntry
  warnings : List String
  errors : List String
deriving DecidableEq, Repr

/-- `StageProcessor.process_stage_4`: warn and return empty when the
session has no match-record key, else one `ignore` row per accumulated
match record, carrying the record's reward-source transaction id. -/
def process_stage_4 (acc : Option (List MatchRecord)) : Stage4Result :=
  match acc with
  | none =>
    { rows := []
      warnings := ["No Stage 3 transactions found. Please run Stage 3 first."]
      errors := [] }
  | some l =>
    { rows := l.map (fun m => ⟨m.id, "ignore"⟩), warnings := [], errors := [] }

/-- The reward-source rows Stage 3 matches for `(accountId, d)` against
expected amount `e`: account filter, then the `(midnight, midnight+10d]`
window, then amounts strictly above `e`, in original order. -/
def stage3Matches (bitwave : List BitwaveRow) (accountId : String)
    (d : Int) (e : ℚ) : List BitwaveRow :=
  ((bitwave.filter (fun t => t.walletId == accountId)).filter
      (fun t => decide ((d : ℚ) * 86400 < t.dateTime) &&
        decide (t.dateTime ≤ (d : ℚ) * 86400 + 864000))).filter
    (fun t => decide (e < t.amount))

theorem calculate_bitwave_amount_eq (bitwave : List BitwaveRow)
    (accountId : String) (d : Int) (e : ℚ) (acc : Option (List MatchRecord)) :
    calculate_bitwave_amount bitwave accountId d e acc =
      match stage3Matches bitwave accountId d e with
      | [] => (none, acc)
      | tx :: _ => (some (tx.amount - e),
          some ((acc.getD []) ++ [⟨tx.id, tx.amount, e, tx.amount - e⟩])) := by
  unfold calculate_bitwave_amount stage3Matches
  by_cases h1 : (bitwave.filter (fun t => t.walletId == accountId)).isEmpty
  · rw [if_pos h1]
    have h1' : bitwave.filter (fun t => t.walletId == accountId) = [] := by
      rwa [List.isEmpty_iff] at h1
    rw [h1']
    rfl
  · rw [if_neg h1]
    by_cases h2 : ((bitwave.filter (fun t => t.walletId == accountId)).filter
        (fun t => decide ((d : ℚ) * 86400 < t.dateTime) &&
          decide (t.dateTime ≤ (d : ℚ) * 86400 + 864000))).isEmpty
    · rw [if_pos h2]
      have h2' : (bitwave.filter (fun t => t.walletId == accountId)).filter
          (fun t => decide ((d : ℚ) * 86400 < t.dateTime) &&
            decide (t.dateTime ≤ (d : ℚ) * 86400 + 864000)) = [] := by
        rwa [List.isEmpty_iff] at h2
      rw [h2']
      rfl
    · rw [if_neg h2]

/-- Stage 4's rows are always the accumulated records mapped to
`(transactionID, "ignore")` pairs (the `none` case maps the empty
list). -/
theorem stage4_rows_eq (acc : Option (List MatchRecord)) :
    (process_stage_4 acc).rows =
      (acc.getD []).map (fun m => (⟨m.id, "ignore"⟩ : SuppressionEntry)) := by
  rcases acc with _ | l <;> rfl

theorem stage3Step_acc (stage2Rows : List LedgerEntry) (bitwave : List BitwaveRow)
    (wallets : List WalletEntry) (pairs : List VestingPair)
    (clock : Nat → Timestamp) (s : Stage3State) (row : OutflowRow) :
    (stage3Step stage2Rows bitwave wallets pairs clock s row).acc = s.acc ∨
    ∃ m, (stage3Step stage2Rows bitwave wallets pairs clock s row).acc =
        some (s.acc.getD [] ++ [m]) ∧ ∃ t ∈ bitwave, m.id = t.id := by
  unfold stage3Step
  rcases hA : (get_deposit_account_id row.walletName wallets pairs).1 with _ | a
  · simp only [hA]
    exact Or.inl trivial
  · simp only [hA]
    by_cases ha : a = ""
    · rw [if_pos ha]
      exact Or.inl rfl
    · rw [if_neg ha]
      rcases hE : get_stage2_deposit_amount stage2Rows a row.date with _ | e
      · simp only [hE]
        exact Or.inl trivial
      · simp only [hE, calculate_bitwave_amount_eq]
        rcases hM : stage3Matches bitwave a row.date e with _ | ⟨tx, rest⟩
        · simp only [hM]
          exact Or.inl trivial
        · simp only [hM]
          have htx : tx ∈ stage3Matches bitwave a row.date e := by
            rw [hM]; exact List.mem_cons_self tx rest
          have htxb : tx ∈ bitwave := by
            unfold stage3Matches at htx
            exact List.mem_of_mem_filter
              (List.mem_of_mem_filter (List.mem_of_mem_filter htx))
          by_cases hc : tx.amount - e ≤ 0
          · rw [if_pos hc]
            exact Or.inr ⟨⟨tx.id, tx.amount, e, tx.amount - e⟩, rfl, tx, htxb, rfl⟩
          · rw [if_neg hc]
            exact Or.inr ⟨⟨tx.id, tx.amount, e, tx.amount - e⟩, rfl, tx, htxb, rfl⟩

theorem stage3_foldl_acc (stage2Rows : List LedgerEntry) (bitwave : List BitwaveRow)
    (wallets : List WalletEntry) (pairs : List VestingPair)
    (clock : Nat → Timestamp) :
    ∀ (rows : List OutflowRow) (s : Stage3State),
      (rows.foldl (stage3Step stage2Rows bitwave wallets pairs clock) s).acc = s.acc ∨
      ∃ new, new ≠ [] ∧
        (rows.foldl (stage3Step stage2Rows bitwave wallets pairs clock) s).acc =
          some (s.acc.getD [] ++ new) ∧
        ∀ m ∈ new, ∃ t ∈ bitwave, m.id = t.id := by
  intro rows
  induction rows with
  | nil => intro s; exact Or.inl rfl
  | cons row rest ih =>
    intro s
    simp only [List.foldl_cons]
    rcases stage3Step_acc stage2Rows bitwave wallets pairs clock s row with h | ⟨m, hm, hmt⟩
    · rcases ih (stage3Step stage2Rows bitwave wallets pairs clock s row) with h' | ⟨new, hne, h', hprov⟩
      · rw [h'] at *
        exact Or.inl h
      · rw [h] at h'
        exact Or.inr ⟨new, hne, h', hprov⟩
    · rcases ih (stage3Step stage2Rows bitwave wallets pairs clock s row) with h' | ⟨new, hne, h', hprov⟩
      · rw [hm] at h'
        exact Or.inr ⟨[m], by simp, h', by simpa using hmt⟩
      · rw [hm] at h'
        simp only [Option.getD_some] at h'
        refine Or.inr ⟨[m] ++ new, by simp, ?_, ?_⟩
        · rw [h', List.append_assoc]
        · intro x hx
          rcases List.mem_append.mp hx with hx | hx
          · rw [List.mem_singleton.mp hx]
            exact hmt
          · exact hprov x hx

theorem stage3_run_acc (stage1Rows : List OutflowRow) (stage2Rows : List LedgerEntry)
    (bitwave : List BitwaveRow) (wallets : List WalletEntry)
    (pairs : List VestingPair) (clock : Nat → Timestamp) (g : GenState)
    (acc : Option (List MatchRecord)) :
    (process_stage_3 stage1Rows stage2Rows bitwave wallets pairs clock g acc).acc = acc ∨
    ∃ new, new ≠ [] ∧
      (process_stage_3 stage1Rows stage2Rows bitwave wallets pairs clock g acc).acc =
        some (acc.getD [] ++ new) ∧
      ∀ m ∈ new, ∃ t ∈ bitwave, m.id = t.id := by
  unfold process_stage_3
  by_cases h : stage1Rows.isEmpty
  · rw [if_pos h]
    exact Or.inl rfl
  · rw [if_neg h]
    exact stage3_foldl_acc stage2Rows bitwave wallets pairs clock stage1Rows
      { gen := g, rows := [], display := [], acc := acc, errors := [] }

theorem stage3_run_acc_getD (stage1Rows : List OutflowRow)
    (stage2Rows : List LedgerEntry) (bitwave : List BitwaveRow)
    (wallets : List WalletEntry) (pairs : List VestingPair)
    (clock : Nat → Timestamp) (g : GenState) (acc : Option (List MatchRecord)) :
    ∃ new,
      (process_stage_3 stage1Rows stage2Rows bitwave wallets pairs clock
        g acc).acc.getD [] = acc.getD [] ++ new ∧
      ∀ m ∈ new, ∃ t ∈ bitwave, m.id = t.id := by
  rcases stage3_run_acc stage1Rows stage2Rows bitwave wallets pairs clock g acc with
    h | ⟨new, _, h, hprov⟩
  · exact ⟨[], by simp [h], by simp⟩
  · exact ⟨new, by simp [h], hprov⟩

/-- Claim C9: the match-record accumulator is append-only — a Stage-3 run
only ever extends it — so after two consecutive Stage-3 runs in one
session both runs' records are present, and Stage 4 emits one row per
record of the whole accumulated list, not just the latest run's. -/
theorem claim_C9 (r1 r2 : List OutflowRow) (s21 s22 : List LedgerEntry)
    (bw1 bw2 : List BitwaveRow) (w1 w2 : List WalletEntry)
    (p1 p2 : List VestingPair) (clk1 clk2 : Nat → Timestamp) (g : GenState)
    (acc0 : Option (List MatchRecord)) :
    ∃ new1 new2,
      (process_stage_3 r1 s21 bw1 w1 p1 clk1 g acc0).acc.getD [] =
        acc0.getD [] ++ new1 ∧
      (process_stage_3 r2 s22 bw2 w2 p2 clk2
          (process_stage_3 r1 s21 bw1 w1 p1 clk1 g acc0).gen
          (process_stage_3 r1 s21 bw1 w1 p1 clk1 g acc0).acc).acc.getD [] =
        (acc0.getD [] ++ new1) ++ new2 ∧
      (process_stage_4 (process_stage_3 r2 s22 bw2 w2 p2 clk2
          (process_stage_3 r1 s21 bw1 w1 p1 clk1 g acc0).gen
          (process_stage_3 r1 s21 bw1 w1 p1 clk1 g acc0).acc).acc).rows =
        ((acc0.getD [] ++ new1) ++ new2).map
          (fun m => (⟨m.id, "ignore"⟩ : SuppressionEntry)) := by
  obtain ⟨new1, h1, _⟩ := stage3_run_acc_getD r1 s21 bw1 w1 p1 clk1 g acc0
  obtain ⟨new2, h2, _⟩ := stage3_run_acc_getD r2 s22 bw2 w2 p2 clk2
    (process_stage_3 r1 s21 bw1 w1 p1 clk1 g acc0).gen
    (process_stage_3 r1 s21 bw1 w1 p1 clk1 g acc0).acc
  refine ⟨new1, new2, h1, ?_, ?_⟩
  · rw [h2, h1]
  · rw [stage4_rows_eq, h2, h1]

/-- Claim C1 counterexample: two identical Stage-3 runs in one session,
each producing exactly one match record; Stage 4 then emits two
suppression rows, not one per record of the immediately preceding run. -/
theorem claim_C1_counterexample :
    ((process_stage_3 [⟨0, "Aptos TeamA", 100, 500⟩]
        [depositEntry "VTx" "W2" ⟨0, "Aptos TeamA", 100, 500⟩]
        [⟨"btx1", 86400, "W2", 112⟩]
        [⟨"W2", "TeamA Beneficiary", none⟩]
        [⟨"Aptos TeamA", "TeamA Beneficiary"⟩]
        (fun _ => ⟨2024, 1, 5, 12, 0, 0⟩)
        (process_stage_3 [⟨0, "Aptos TeamA", 100, 500⟩]
          [depositEntry "VTx" "W2" ⟨0, "Aptos TeamA", 100, 500⟩]
          [⟨"btx1", 86400, "W2", 112⟩]
          [⟨"W2", "TeamA Beneficiary", none⟩]
          [⟨"Aptos TeamA", "TeamA Beneficiary"⟩]
          (fun _ => ⟨2024, 1, 5, 12, 0, 0⟩) (initState 1) none).gen
        (process_stage_3 [⟨0, "Aptos TeamA", 100, 500⟩]
          [depositEntry "VTx" "W2" ⟨0, "Aptos TeamA", 100, 500⟩]
          [⟨"btx1", 86400, "W2", 112⟩]
          [⟨"W2", "TeamA Beneficiary", none⟩]
          [⟨"Aptos TeamA", "TeamA Beneficiary"⟩]
          (fun _ => ⟨2024, 1, 5, 12, 0, 0⟩) (initState 1) none).acc).acc.getD []).length -
      ((process_stage_3 [⟨0, "Aptos TeamA", 100, 500⟩]
        [depositEntry "VTx" "W2" ⟨0, "Aptos TeamA", 100, 500⟩]
        [⟨"btx1", 86400, "W2", 112⟩]
        [⟨"W2", "TeamA Beneficiary", none⟩]
        [⟨"Aptos TeamA", "TeamA Beneficiary"⟩]
        (fun _ => ⟨2024, 1, 5, 12, 0, 0⟩) (initState 1) none).acc.getD []).length = 1 ∧
    (process_stage_4 (process_stage_3 [⟨0, "Aptos TeamA", 100, 500⟩]
        [depositEntry "VTx" "W2" ⟨0, "Aptos TeamA", 100, 500⟩]
        [⟨"btx1", 86400, "W2", 112⟩]
        [⟨"W2", "TeamA Beneficiary", none⟩]
        [⟨"Aptos TeamA", "TeamA Beneficiary"⟩]
        (fun _ => ⟨2024, 1, 5, 12, 0, 0⟩)
        (process_stage_3 [⟨0, "Aptos TeamA", 100, 500⟩]
          [depositEntry "VTx" "W2" ⟨0, "Aptos TeamA", 100, 500⟩]
          [⟨"btx1", 86400, "W2", 112⟩]
          [⟨"W2", "TeamA Beneficiary", none⟩]
          [⟨"Aptos TeamA", "TeamA Beneficiary"⟩]
          (fun _ => ⟨2024, 1, 5, 12, 0, 0⟩) (initState 1) none).gen
        (process_stage_3 [⟨0, "Aptos TeamA", 100, 500⟩]
          [depositEntry "VTx" "W2" ⟨0, "Aptos TeamA", 100, 500⟩]
          [⟨"btx1", 86400, "W2", 112⟩]
          [⟨"W2", "TeamA Beneficiary", none⟩]
          [⟨"Aptos TeamA", "TeamA Beneficiary"⟩]
          (fun _ => ⟨2024, 1, 5, 12, 0, 0⟩) (initState 1) none).acc).acc).rows.length = 2 := by
  constructor
  · with_unfolding_all rfl
  · with_unfolding_all rfl

/-- Claim C1 as amended: Stage 4 emits exactly one suppression entry —
the record's reward-source transaction id with fixed action `"ignore"` —
per match record of the session accumulator (which holds every Stage-3
run's records, not only the immediately preceding run's); a session with
no records yields an empty result with a warning and no error; and every
record a Stage-3 run adds carries the id of some reward-source row. -/
theorem claim_C1_amended (stage1Rows : List OutflowRow)
    (stage2Rows : List LedgerEntry) (bitwave : List BitwaveRow)
    (wallets : List WalletEntry) (pairs : List VestingPair)
    (clock : Nat → Timestamp) (g : GenState) (acc : Option (List MatchRecord)) :
    (process_stage_4 none).rows = [] ∧
    (process_stage_4 none).warnings =
      ["No Stage 3 transactions found. Please run Stage 3 first."] ∧
    (process_stage_4 none).errors = [] ∧
    (process_stage_4 acc).rows =
      (acc.getD []).map (fun m => (⟨m.id, "ignore"⟩ : SuppressionEntry)) ∧
    (∀ l, (process_stage_4 (some l)).errors = [] ∧
      (process_stage_4 (some l)).warnings = []) ∧
    ∀ m ∈ (process_stage_3 stage1Rows stage2Rows bitwave wallets pairs clock
        g acc).acc.getD [],
      m ∈ acc.getD [] ∨ ∃ t ∈ bitwave, m.id = t.id := by
  refine ⟨rfl, rfl, rfl, stage4_rows_eq acc, fun l => ⟨rfl, rfl⟩, ?_⟩
  intro m hm
  obtain ⟨new, hgetD, hprov⟩ := stage3_run_acc_getD stage1Rows stage2Rows bitwave
    wallets pairs clock g acc
  rw [hgetD] at hm
  rcases List.mem_append.mp hm with h | h
  · exact Or.inl h
  · exact Or.inr (hprov m h)

/-- Concrete instance of the amended claim C1: a seeded accumulator run
through Stage 3 keeps the seed and Stage 4 maps every record to an
`ignore` row. -/
theorem claim_C1_amended_witness :
    (process_stage_4 (some [⟨"seed", 5, 3, 2⟩])).rows =
      ((some [(⟨"seed", 5, 3, 2⟩ : MatchRecord)]).getD []).map
        (fun m => (⟨m.id, "ignore"⟩ : SuppressionEntry)) ∧
    ((⟨"seed", (5 : ℚ), 3, 2⟩ : MatchRecord) ∈
        ((some [(⟨"seed", 5, 3, 2⟩ : MatchRecord)]).getD
          ([] : List MatchRecord)) ∨
      ∃ t ∈ [(⟨"btx1", 86400, "W2", 112⟩ : BitwaveRow)],
        (⟨"seed", (5 : ℚ), 3, 2⟩ : MatchRecord).id = t.id) :=
  have h := claim_C1_amended [⟨0, "Aptos TeamA", 100, 500⟩]
    [depositEntry "VTx" "W2" ⟨0, "Aptos TeamA", 100, 500⟩]
    [⟨"btx1", 86400, "W2", 112⟩]
    [⟨"W2", "TeamA Beneficiary", none⟩]
    [⟨"Aptos TeamA", "TeamA Beneficiary"⟩]
    (fun _ => ⟨2024, 1, 5, 12, 0, 0⟩) (initState 1)
    (some [⟨"seed", 5, 3, 2⟩])
  ⟨h.2.2.2.1, h.2.2.2.2.2 ⟨"seed", 5, 3, 2⟩ (by with_unfolding_all decide)⟩

/-- Claim C2: given a resolved (truthy) deposit account and a Stage-2
expected amount, a Stage-3 row emits a reward entry iff some
reward-source transaction of that account lies in
`(midnight(date), midnight(date)+10d]` with amount strictly above the
expected amount; the emitted amount is exactly `first match − expected`,
the first being in original (unsorted) order. -/
theorem claim_C2 (stage2Rows : List LedgerEntry) (bitwave : List BitwaveRow)
    (wallets : List WalletEntry) (pairs : List VestingPair)
    (clock : Nat → Timestamp) (s : Stage3State) (row : OutflowRow)
    (a : String) (e : ℚ)
    (hAcc : (get_deposit_account_id row.walletName wallets pairs).1 = some a)
    (hne : a ≠ "")
    (hExp : get_stage2_deposit_amount stage2Rows a row.date = some e) :
    ((stage3Step stage2Rows bitwave wallets pairs clock s row).rows ≠ s.rows ↔
      stage3Matches bitwave a row.date e ≠ []) ∧
    (stage3Matches bitwave a row.date e = [] →
      (stage3Step stage2Rows bitwave wallets pairs clock s row).rows = s.rows) ∧
    ∀ tx rest, stage3Matches bitwave a row.date e = tx :: rest →
      (stage3Step stage2Rows bitwave wallets pairs clock s row).rows =
        s.rows ++ [stakingEntry (get_next_id (clock s.gen.counter) s.gen).1
          a row.date (tx.amount - e)] ∧
      tx.walletId = a ∧ (row.date : ℚ) * 86400 < tx.dateTime ∧
      tx.dateTime ≤ (row.date : ℚ) * 86400 + 864000 ∧ e < tx.amount := by
  have hempty : stage3Matches bitwave a row.date e = [] →
      (stage3Step stage2Rows bitwave wallets pairs clock s row).rows = s.rows := by
    intro hM
    unfold stage3Step
    simp only [hAcc]
    rw [if_neg hne]
    simp only [hExp, calculate_bitwave_amount_eq, hM]
  have hcons : ∀ tx rest, stage3Matches bitwave a row.date e = tx :: rest →
      (stage3Step stage2Rows bitwave wallets pairs clock s row).rows =
        s.rows ++ [stakingEntry (get_next_id (clock s.gen.counter) s.gen).1
          a row.date (tx.amount - e)] ∧
      tx.walletId = a ∧ (row.date : ℚ) * 86400 < tx.dateTime ∧
      tx.dateTime ≤ (row.date : ℚ) * 86400 + 864000 ∧ e < tx.amount := by
    intro tx rest hM
    have htx : tx ∈ stage3Matches bitwave a row.date e := by
      rw [hM]; exact List.mem_cons_self tx rest
    unfold stage3Matches at htx
    have h3 := List.mem_filter.mp htx
    have h2 := List.mem_filter.mp h3.1
    have h1 := List.mem_filter.mp h2.1
    have hamount : e < tx.amount := of_decide_eq_true h3.2
    have hdates := Bool.and_eq_true_iff.mp h2.2
    have hdate1 : (row.date : ℚ) * 86400 < tx.dateTime :=
      of_decide_eq_true hdates.1
    have hdate2 : tx.dateTime ≤ (row.date : ℚ) * 86400 + 864000 :=
      of_decide_eq_true hdates.2
    have hwallet : tx.walletId = a := by
      have := h1.2
      simpa using this
    have hpos : ¬ tx.amount - e ≤ 0 := by
      intro hle
      have := sub_pos.mpr hamount
      linarith
    refine ⟨?_, hwallet, hdate1, hdate2, hamount⟩
    unfold stage3Step
    simp only [hAcc]
    rw [if_neg hne]
    simp only [hExp, calculate_bitwave_amount_eq, hM]
    rw [if_neg hpos]
  refine ⟨?_, hempty, hcons⟩
  constructor
  · intro hrows
    intro hM
    exact hrows (hempty hM)
  · intro hM
    rcases hlist : stage3Matches bitwave a row.date e with _ | ⟨tx, rest⟩
    · exact absurd hlist hM
    · obtain ⟨heq, -⟩ := hcons tx rest hlist
      rw [heq]
      intro hcontra
      have := congrArg List.length hcontra
      simp at this

/-- Concrete instance of claim C2: the spec's §8 Stage-3 scenario —
expected 100 on the date's deposit, a reward-source transaction of 112
three days later — emits exactly `112 − 100`. -/
theorem claim_C2_witness :
    (stage3Step [depositEntry "VTx" "W2" ⟨0, "Aptos TeamA", 100, 500⟩]
        [⟨"btx1", 259200, "W2", 112⟩]
        [⟨"W2", "TeamA Beneficiary", none⟩]
        [⟨"Aptos TeamA", "TeamA Beneficiary"⟩]
        (fun _ => ⟨2024, 1, 5, 12, 0, 0⟩)
        ⟨initState 1, [], [], none, []⟩
        ⟨0, "Aptos TeamA", 100, 500⟩).rows =
      [stakingEntry
        (get_next_id ((fun _ => (⟨2024, 1, 5, 12, 0, 0⟩ : Timestamp))
            (initState 1).counter) (initState 1)).1
        "W2" (0 : Int) ((112 : ℚ) - 100)] ∧
    ("W2" : String) = "W2" ∧
    (((0 : Int) : ℚ) * 86400 < (259200 : ℚ)) ∧
    ((259200 : ℚ) ≤ ((0 : Int) : ℚ) * 86400 + 864000) ∧
    ((100 : ℚ) < 112) :=
  (claim_C2 [depositEntry "VTx" "W2" ⟨0, "Aptos TeamA", 100, 500⟩]
    [⟨"btx1", 259200, "W2", 112⟩]
    [⟨"W2", "TeamA Beneficiary", none⟩]
    [⟨"Aptos TeamA", "TeamA Beneficiary"⟩]
    (fun _ => ⟨2024, 1, 5, 12, 0, 0⟩)
    ⟨initState 1, [], [], none, []⟩
    ⟨0, "Aptos TeamA", 100, 500⟩ "W2" 100
    (by with_unfolding_all rfl) (by decide)
    (by with_unfolding_all rfl)).2.2
    ⟨"btx1", 259200, "W2", 112⟩ [] (by with_unfolding_all rfl)
